import Mathlib

/-!
Verification of the `internal/math` subsystem of ganyariya/tinyengine.

The Go code works on `float64`; the embedding models those values as exact
real numbers (`ℝ`), so every guard written against a numeric tolerance in
the code (`Epsilon`, `ZeroThreshold`) is carried over literally, and the
"approximately equal within ε" statements of the specification become
exact equalities that hold a fortiori within any positive tolerance.

Sources embedded:
  - internal/math/vector.go     (Vector2, Vector3 and their operations)
  - internal/math/matrix.go     (Matrix3x3 and its operations)
  - internal/math/transform.go  (Transform)
  - internal/math/camera.go     (Camera2D)
  - internal/math/constants.go  (Epsilon, ZeroThreshold, IsZero, DegreesToRad)
-/

open Classical

namespace TinyEngine

noncomputable section

/-- constants.go: `Epsilon = 1e-10` (general comparison tolerance). -/
def Epsilon : ℝ := 1 / 10 ^ 10

/-- constants.go: `ZeroThreshold = 1e-8` (near-zero test threshold). -/
def ZeroThreshold : ℝ := 1 / 10 ^ 8

/-- constants.go: `DegreesToRadians = math.Pi / 180.0`. -/
def DegreesToRadians : ℝ := Real.pi / 180

/-- constants.go: `IsZero(value)` returns `math.Abs(value) < ZeroThreshold`. -/
def IsZero (value : ℝ) : Prop := |value| < ZeroThreshold

/-- constants.go: `DegreesToRad(degrees)` returns `degrees * DegreesToRadians`. -/
def DegreesToRad (degrees : ℝ) : ℝ := degrees * DegreesToRadians

/-- vector.go: `Vector2` with fields `X, Y float64`. -/
@[ext]
structure Vector2 where
  X : ℝ
  Y : ℝ

/-- vector.go: `Vector3` with fields `X, Y, Z float64` (homogeneous coords). -/
@[ext]
structure Vector3 where
  X : ℝ
  Y : ℝ
  Z : ℝ

/-- vector.go: `Vector2.Add`. -/
def Vector2.Add (v other : Vector2) : Vector2 :=
  ⟨v.X + other.X, v.Y + other.Y⟩

/-- vector.go: `Vector2.Sub`. -/
def Vector2.Sub (v other : Vector2) : Vector2 :=
  ⟨v.X - other.X, v.Y - other.Y⟩

/-- vector.go: `Vector2.Scale` (scalar multiplication). -/
def Vector2.Scale (v : Vector2) (scalar : ℝ) : Vector2 :=
  ⟨v.X * scalar, v.Y * scalar⟩

/-- vector.go: `Vector2.Length` returns `math.Sqrt(v.X*v.X + v.Y*v.Y)`. -/
def Vector2.Length (v : Vector2) : ℝ :=
  Real.sqrt (v.X * v.X + v.Y * v.Y)

/-- vector.go: `Vector2.LengthSquared`. -/
def Vector2.LengthSquared (v : Vector2) : ℝ :=
  v.X * v.X + v.Y * v.Y

/-- vector.go: `Vector2.Normalize` returns the zero vector when
`IsZero(length)`, otherwise divides both components by the length. -/
def Vector2.Normalize (v : Vector2) : Vector2 :=
  if IsZero v.Length then ⟨0, 0⟩ else ⟨v.X / v.Length, v.Y / v.Length⟩

/-- vector.go: `Vector2.ToVector3` embeds with `Z = 1`. -/
def Vector2.ToVector3 (v : Vector2) : Vector3 :=
  ⟨v.X, v.Y, 1⟩

/-- vector.go: `Vector3.ToVector2` divides by `Z` unless `Z == 0`, in which
case it returns `(X, Y)` unchanged. -/
def Vector3.ToVector2 (v : Vector3) : Vector2 :=
  if v.Z = 0 then ⟨v.X, v.Y⟩ else ⟨v.X / v.Z, v.Y / v.Z⟩

/-- matrix.go: `Matrix3x3 [3][3]float64`; field `mIJ` is entry `m[I][J]`. -/
@[ext]
structure Matrix3x3 where
  m00 : ℝ
  m01 : ℝ
  m02 : ℝ
  m10 : ℝ
  m11 : ℝ
  m12 : ℝ
  m20 : ℝ
  m21 : ℝ
  m22 : ℝ

/-- matrix.go: `NewIdentityMatrix3x3`. -/
def NewIdentityMatrix3x3 : Matrix3x3 :=
  ⟨1, 0, 0, 0, 1, 0, 0, 0, 1⟩

/-- matrix.go: `NewTranslationMatrix3x3(dx, dy)`. -/
def NewTranslationMatrix3x3 (dx dy : ℝ) : Matrix3x3 :=
  ⟨1, 0, dx, 0, 1, dy, 0, 0, 1⟩

/-- matrix.go: `NewScaleMatrix3x3(sx, sy)`. -/
def NewScaleMatrix3x3 (sx sy : ℝ) : Matrix3x3 :=
  ⟨sx, 0, 0, 0, sy, 0, 0, 0, 1⟩

/-- matrix.go: `NewRotationMatrix3x3(angle)` with `cos = math.Cos(angle)`,
`sin = math.Sin(angle)`. -/
def NewRotationMatrix3x3 (angle : ℝ) : Matrix3x3 :=
  ⟨Real.cos angle, -Real.sin angle, 0,
   Real.sin angle, Real.cos angle, 0,
   0, 0, 1⟩

/-- matrix.go: `Multiply` — the triple loop `result[i][j] += m[i][k] *
other[k][j]` unrolled: entry `(i,j)` is the sum over `k` of
`m[i][k] * other[k][j]`. -/
def Matrix3x3.Multiply (m other : Matrix3x3) : Matrix3x3 :=
  ⟨m.m00 * other.m00 + m.m01 * other.m10 + m.m02 * other.m20,
   m.m00 * other.m01 + m.m01 * other.m11 + m.m02 * other.m21,
   m.m00 * other.m02 + m.m01 * other.m12 + m.m02 * other.m22,
   m.m10 * other.m00 + m.m11 * other.m10 + m.m12 * other.m20,
   m.m10 * other.m01 + m.m11 * other.m11 + m.m12 * other.m21,
   m.m10 * other.m02 + m.m11 * other.m12 + m.m12 * other.m22,
   m.m20 * other.m00 + m.m21 * other.m10 + m.m22 * other.m20,
   m.m20 * other.m01 + m.m21 * other.m11 + m.m22 * other.m21,
   m.m20 * other.m02 + m.m21 * other.m12 + m.m22 * other.m22⟩

/-- matrix.go: `MultiplyVector`. -/
def Matrix3x3.MultiplyVector (m : Matrix3x3) (v : Vector3) : Vector3 :=
  ⟨m.m00 * v.X + m.m01 * v.Y + m.m02 * v.Z,
   m.m10 * v.X + m.m11 * v.Y + m.m12 * v.Z,
   m.m20 * v.X + m.m21 * v.Y + m.m22 * v.Z⟩

/-- matrix.go: `TransformPoint` — homogeneous embed with `Z = 1`, multiply,
then perspective divide. -/
def Matrix3x3.TransformPoint (m : Matrix3x3) (point : Vector2) : Vector2 :=
  (m.MultiplyVector point.ToVector3).ToVector2

/-- matrix.go: `Determinant` — cofactor expansion along the first row. -/
def Matrix3x3.Determinant (m : Matrix3x3) : ℝ :=
  m.m00 * (m.m11 * m.m22 - m.m12 * m.m21) -
    m.m01 * (m.m10 * m.m22 - m.m12 * m.m20) +
    m.m02 * (m.m10 * m.m21 - m.m11 * m.m20)

/-- matrix.go: `Inverse` — fails (returns `none`, the Go code returns the
singular-matrix error) when `math.Abs(det) < Epsilon`; otherwise the
adjugate divided by the determinant (`invDet = 1.0 / det`). -/
def Matrix3x3.Inverse (m : Matrix3x3) : Option Matrix3x3 :=
  if |m.Determinant| < Epsilon then none
  else
    some
      ⟨(m.m11 * m.m22 - m.m12 * m.m21) / m.Determinant,
       (m.m02 * m.m21 - m.m01 * m.m22) / m.Determinant,
       (m.m01 * m.m12 - m.m02 * m.m11) / m.Determinant,
       (m.m12 * m.m20 - m.m10 * m.m22) / m.Determinant,
       (m.m00 * m.m22 - m.m02 * m.m20) / m.Determinant,
       (m.m02 * m.m10 - m.m00 * m.m12) / m.Determinant,
       (m.m10 * m.m21 - m.m11 * m.m20) / m.Determinant,
       (m.m01 * m.m20 - m.m00 * m.m21) / m.Determinant,
       (m.m00 * m.m11 - m.m01 * m.m10) / m.Determinant⟩

/-- transform.go: `Transform` with position, rotation (radians), scale. -/
@[ext]
structure Transform where
  Position : Vector2
  Rotation : ℝ
  Scale : Vector2

/-- transform.go: `ToMatrix` — `translation.Multiply(rotation).Multiply(scale)`
(SRT order). -/
def Transform.ToMatrix (t : Transform) : Matrix3x3 :=
  ((NewTranslationMatrix3x3 t.Position.X t.Position.Y).Multiply
      (NewRotationMatrix3x3 t.Rotation)).Multiply
    (NewScaleMatrix3x3 t.Scale.X t.Scale.Y)

/-- transform.go: `ToInverseMatrix` — `t.ToMatrix().Inverse()`. -/
def Transform.ToInverseMatrix (t : Transform) : Option Matrix3x3 :=
  t.ToMatrix.Inverse

/-- transform.go: `TransformPoint`. -/
def Transform.TransformPoint (t : Transform) (point : Vector2) : Vector2 :=
  t.ToMatrix.TransformPoint point

/-- transform.go: `InverseTransformPoint` — propagates the inversion error
(`none`), otherwise transforms by the inverse matrix. -/
def Transform.InverseTransformPoint (t : Transform) (point : Vector2) :
    Option Vector2 :=
  match t.ToInverseMatrix with
  | none => none
  | some inv => some (inv.TransformPoint point)

/-- camera.go: `Camera2D` with position, zoom, rotation (radians). -/
@[ext]
structure Camera2D where
  Position : Vector2
  Zoom : ℝ
  Rotation : ℝ

/-- camera.go: `NewCamera2D` — origin, zoom 1, rotation 0. -/
def NewCamera2D : Camera2D :=
  ⟨⟨0, 0⟩, 1, 0⟩

/-- camera.go: `NewCamera2DWithValues(position, zoom, rotation)`. -/
def NewCamera2DWithValues (position : Vector2) (zoom rotation : ℝ) :
    Camera2D :=
  ⟨position, zoom, rotation⟩

/-- camera.go: `GetViewMatrix` —
`scale.Multiply(rotation).Multiply(translation)` with scale `(Zoom, Zoom)`,
rotation `-Rotation`, translation `(-Position.X, -Position.Y)`. -/
def Camera2D.GetViewMatrix (c : Camera2D) : Matrix3x3 :=
  ((NewScaleMatrix3x3 c.Zoom c.Zoom).Multiply
      (NewRotationMatrix3x3 (-c.Rotation))).Multiply
    (NewTranslationMatrix3x3 (-c.Position.X) (-c.Position.Y))

/-- camera.go: `ScreenToWorld` — normalize pixels to `[-1,1]` with the
Y-flip, then apply the inverse view matrix; falls back to the world origin
when the view matrix is singular. -/
def Camera2D.ScreenToWorld (c : Camera2D) (screenPos : Vector2)
    (screenWidth screenHeight : ℝ) : Vector2 :=
  let halfWidth := screenWidth / 2
  let halfHeight := screenHeight / 2
  let normalized : Vector2 :=
    ⟨(screenPos.X - halfWidth) / halfWidth,
     (halfHeight - screenPos.Y) / halfHeight⟩
  match c.GetViewMatrix.Inverse with
  | none => ⟨0, 0⟩
  | some inverseView => inverseView.TransformPoint normalized

/-- camera.go: `WorldToScreen` — apply the view matrix, then scale and
translate to pixels with the Y-flip. -/
def Camera2D.WorldToScreen (c : Camera2D) (worldPos : Vector2)
    (screenWidth screenHeight : ℝ) : Vector2 :=
  let viewPos := c.GetViewMatrix.TransformPoint worldPos
  let halfWidth := screenWidth / 2
  let halfHeight := screenHeight / 2
  ⟨viewPos.X * halfWidth + halfWidth,
   halfHeight - viewPos.Y * halfHeight⟩

/-- camera.go: `SetZoom` — assigns only when `zoom > 0`. -/
def Camera2D.SetZoom (c : Camera2D) (zoom : ℝ) : Camera2D :=
  if zoom > 0 then { c with Zoom := zoom } else c

/-- camera.go: `ZoomBy` — multiplies the zoom only when `factor > 0`. -/
def Camera2D.ZoomBy (c : Camera2D) (factor : ℝ) : Camera2D :=
  if factor > 0 then { c with Zoom := c.Zoom * factor } else c

/-- camera.go: `SetPosition`. -/
def Camera2D.SetPosition (c : Camera2D) (position : Vector2) : Camera2D :=
  { c with Position := position }

/-- camera.go: `SetRotation`. -/
def Camera2D.SetRotation (c : Camera2D) (rotation : ℝ) : Camera2D :=
  { c with Rotation := rotation }

/-- camera.go: `SetRotationDegrees`. -/
def Camera2D.SetRotationDegrees (c : Camera2D) (degrees : ℝ) : Camera2D :=
  { c with Rotation := DegreesToRad degrees }

/-- camera.go: `Move`. -/
def Camera2D.Move (c : Camera2D) (offset : Vector2) : Camera2D :=
  { c with Position := c.Position.Add offset }

/-- camera.go: `Rotate`. -/
def Camera2D.Rotate (c : Camera2D) (angle : ℝ) : Camera2D :=
  { c with Rotation := c.Rotation + angle }

/-- camera.go: `RotateDegrees`. -/
def Camera2D.RotateDegrees (c : Camera2D) (degrees : ℝ) : Camera2D :=
  { c with Rotation := c.Rotation + DegreesToRad degrees }

/-- camera.go: `LookAt`. -/
def Camera2D.LookAt (c : Camera2D) (target : Vector2) : Camera2D :=
  { c with Position := target }

/-- Componentwise approximate equality of 2D vectors within a tolerance,
as used by the specification's "≈ within ε" statements. -/
def ApproxV2 (a b : Vector2) (eps : ℝ) : Prop :=
  |a.X - b.X| ≤ eps ∧ |a.Y - b.Y| ≤ eps

/-! ### Helper lemmas -/

/-- A quantity whose absolute value is at least `Epsilon` is nonzero. -/
lemma ne_zero_of_eps_le_abs {x : ℝ} (h : Epsilon ≤ |x|) : x ≠ 0 := by
  intro h0
  rw [h0, abs_zero, Epsilon] at h
  norm_num at h

/-- `TransformPoint` of an affine matrix (bottom row `(0,0,1)`) is the usual
affine action: the homogeneous coordinate stays `1`, so the perspective
divide is by `1`. -/
lemma TransformPoint_affine (a b c d e f : ℝ) (p : Vector2) :
    Matrix3x3.TransformPoint ⟨a, b, c, d, e, f, 0, 0, 1⟩ p =
      ⟨a * p.X + b * p.Y + c, d * p.X + e * p.Y + f⟩ := by
  simp [Matrix3x3.TransformPoint, Matrix3x3.MultiplyVector, Vector2.ToVector3,
    Vector3.ToVector2]

/-- The determinant of an affine matrix is the determinant of its linear
part. -/
lemma Determinant_affine (a b c d e f : ℝ) :
    Matrix3x3.Determinant ⟨a, b, c, d, e, f, 0, 0, 1⟩ = a * e - b * d := by
  simp [Matrix3x3.Determinant]

/-- Explicit form of `Inverse` on an affine matrix whose linear part has
determinant of absolute value at least `Epsilon`. -/
lemma Inverse_affine (a b c d e f : ℝ) (hε : Epsilon ≤ |a * e - b * d|) :
    Matrix3x3.Inverse ⟨a, b, c, d, e, f, 0, 0, 1⟩ =
      some ⟨e / (a * e - b * d), -b / (a * e - b * d),
        (b * f - c * e) / (a * e - b * d),
        -d / (a * e - b * d), a / (a * e - b * d),
        (c * d - a * f) / (a * e - b * d),
        0, 0, 1⟩ := by
  have hne : a * e - b * d ≠ 0 := ne_zero_of_eps_le_abs hε
  rw [Matrix3x3.Inverse]
  rw [Determinant_affine, if_neg (not_lt.mpr hε)]
  refine congrArg some ?_
  ext <;> first
    | ring1
    | exact div_self hne

/-- Applying the explicit affine inverse after the affine matrix recovers
the point. -/
lemma affine_inverse_roundtrip (a b c d e f : ℝ)
    (hne : a * e - b * d ≠ 0) (p : Vector2) :
    Matrix3x3.TransformPoint
      ⟨e / (a * e - b * d), -b / (a * e - b * d),
        (b * f - c * e) / (a * e - b * d),
        -d / (a * e - b * d), a / (a * e - b * d),
        (c * d - a * f) / (a * e - b * d),
        0, 0, 1⟩
      (Matrix3x3.TransformPoint ⟨a, b, c, d, e, f, 0, 0, 1⟩ p) = p := by
  rw [TransformPoint_affine, TransformPoint_affine]
  ext
  · show _ = p.X
    field_simp
    ring
  · show _ = p.Y
    field_simp
    ring

/-- Any affine matrix with determinant of absolute value at least `Epsilon`
inverts successfully, and the inverse undoes `TransformPoint`. -/
lemma affine_inverse_transformPoint (M : Matrix3x3) (h20 : M.m20 = 0)
    (h21 : M.m21 = 0) (h22 : M.m22 = 1)
    (hε : Epsilon ≤ |M.Determinant|) :
    ∃ mi, M.Inverse = some mi ∧
      ∀ p, mi.TransformPoint (M.TransformPoint p) = p := by
  obtain ⟨a, b, c, d, e, f, a2, b2, c2⟩ := M
  have ha2 : a2 = 0 := h20
  have hb2 : b2 = 0 := h21
  have hc2 : c2 = 1 := h22
  subst ha2
  subst hb2
  subst hc2
  rw [Determinant_affine] at hε
  exact ⟨_, Inverse_affine a b c d e f hε,
    fun p => affine_inverse_roundtrip a b c d e f (ne_zero_of_eps_le_abs hε) p⟩

/-- `Transform.ToMatrix` always produces an affine matrix: its bottom row is
`(0, 0, 1)`. -/
lemma Transform.ToMatrix_bottom_row (t : Transform) :
    t.ToMatrix.m20 = 0 ∧ t.ToMatrix.m21 = 0 ∧ t.ToMatrix.m22 = 1 := by
  refine ⟨?_, ?_, ?_⟩ <;>
    simp [Transform.ToMatrix, Matrix3x3.Multiply, NewTranslationMatrix3x3,
      NewRotationMatrix3x3, NewScaleMatrix3x3]

/-- `Camera2D.GetViewMatrix` always produces an affine matrix: its bottom
row is `(0, 0, 1)`. -/
lemma Camera2D.GetViewMatrix_bottom_row (c : Camera2D) :
    c.GetViewMatrix.m20 = 0 ∧ c.GetViewMatrix.m21 = 0 ∧
      c.GetViewMatrix.m22 = 1 := by
  refine ⟨?_, ?_, ?_⟩ <;>
    simp [Camera2D.GetViewMatrix, Matrix3x3.Multiply, NewTranslationMatrix3x3,
      NewRotationMatrix3x3, NewScaleMatrix3x3]

/-- Matrix multiplication is associative (entrywise polynomial identity). -/
lemma Multiply_assoc (A B C : Matrix3x3) :
    (A.Multiply B).Multiply C = A.Multiply (B.Multiply C) := by
  ext <;> (simp only [Matrix3x3.Multiply]; ring1)

/-! ### Claim theorems -/

/-- C1: `Transform.ToMatrix` composes as
`Translation(Position) · Rotation(Rotation) · Scale(Scale)` (SRT order,
under either bracketing of the product), and the concrete SRT scenario
`Transform{Position=(10,5), Rotation=π/2, Scale=(2,2)}` maps `(1,0)` to
`(10,7)` (exactly, over the reals). -/
theorem C1_toMatrix_SRT :
    (∀ t : Transform,
        t.ToMatrix =
          ((NewTranslationMatrix3x3 t.Position.X t.Position.Y).Multiply
              (NewRotationMatrix3x3 t.Rotation)).Multiply
            (NewScaleMatrix3x3 t.Scale.X t.Scale.Y) ∧
        t.ToMatrix =
          (NewTranslationMatrix3x3 t.Position.X t.Position.Y).Multiply
            ((NewRotationMatrix3x3 t.Rotation).Multiply
              (NewScaleMatrix3x3 t.Scale.X t.Scale.Y))) ∧
      (⟨⟨10, 5⟩, Real.pi / 2, ⟨2, 2⟩⟩ : Transform).TransformPoint ⟨1, 0⟩ =
        ⟨10, 7⟩ := by
  constructor
  · intro t
    exact ⟨rfl, Multiply_assoc _ _ _⟩
  · simp [Transform.TransformPoint, Transform.ToMatrix,
      Matrix3x3.TransformPoint, Matrix3x3.Multiply, Matrix3x3.MultiplyVector,
      NewTranslationMatrix3x3, NewRotationMatrix3x3, NewScaleMatrix3x3,
      Vector2.ToVector3, Vector3.ToVector2, Real.cos_pi_div_two,
      Real.sin_pi_div_two]
    norm_num

/-- C3: `Inverse` fails (returns the singular-matrix error) exactly when
`|Determinant| < Epsilon` (ε = 1e-10), and the concrete matrix
`{{1,2,3},{4,5,6},{7,8,9}}` has determinant `0`, so its inverse fails. -/
theorem C3_inverse_singular_iff :
    (∀ m : Matrix3x3, m.Inverse = none ↔ |m.Determinant| < Epsilon) ∧
      Matrix3x3.Determinant ⟨1, 2, 3, 4, 5, 6, 7, 8, 9⟩ = 0 ∧
      Matrix3x3.Inverse ⟨1, 2, 3, 4, 5, 6, 7, 8, 9⟩ = none := by
  have hdet : Matrix3x3.Determinant ⟨1, 2, 3, 4, 5, 6, 7, 8, 9⟩ = 0 := by
    norm_num [Matrix3x3.Determinant]
  refine ⟨?_, hdet, ?_⟩
  · intro m
    rw [Matrix3x3.Inverse]
    split_ifs with h
    · simp [h]
    · simp [h]
  · rw [Matrix3x3.Inverse, hdet]
    norm_num [Epsilon]

/-- C5: the identity matrix is a two-sided unit for `Multiply` (exactly),
and any matrix with `|Determinant| ≥ Epsilon` inverts successfully with
`M.Multiply(M.Inverse())` equal to the identity (exactly, over the reals,
hence within the spec's ε = 1e-6). -/
theorem C5_inverse_multiplicative :
    (∀ M : Matrix3x3,
        NewIdentityMatrix3x3.Multiply M = M ∧
          M.Multiply NewIdentityMatrix3x3 = M) ∧
      ∀ M : Matrix3x3, Epsilon ≤ |M.Determinant| →
        ∃ mi, M.Inverse = some mi ∧
          M.Multiply mi = NewIdentityMatrix3x3 := by
  constructor
  · intro M
    constructor <;> (ext <;> simp [Matrix3x3.Multiply, NewIdentityMatrix3x3])
  · intro M hε
    have hne : M.Determinant ≠ 0 := ne_zero_of_eps_le_abs hε
    obtain ⟨a, b, c, d, e, f, g, h, i⟩ := M
    simp only [Matrix3x3.Inverse, if_neg (not_lt.mpr hε)]
    refine ⟨_, rfl, ?_⟩
    ext <;>
      (simp only [Matrix3x3.Multiply, NewIdentityMatrix3x3]
       field_simp
       try simp only [Matrix3x3.Determinant]
       ring1)

/-- C6: `A.Multiply(B)` applied to a homogeneous vector equals applying `B`
first and then `A`, and multiplication is not commutative in general. -/
theorem C6_multiply_composes :
    (∀ A B : Matrix3x3, ∀ v : Vector3,
        (A.Multiply B).MultiplyVector v =
          A.MultiplyVector (B.MultiplyVector v)) ∧
      ∃ A B : Matrix3x3, A.Multiply B ≠ B.Multiply A := by
  constructor
  · intro A B v
    ext <;> (simp only [Matrix3x3.Multiply, Matrix3x3.MultiplyVector]; ring1)
  · refine ⟨NewTranslationMatrix3x3 1 0, NewScaleMatrix3x3 2 1, ?_⟩
    intro hEq
    have h02 := congrArg Matrix3x3.m02 hEq
    simp [Matrix3x3.Multiply, NewTranslationMatrix3x3,
      NewScaleMatrix3x3] at h02
    try norm_num at h02

/-- C4: for a `Transform` whose matrix is invertible (determinant at least
`Epsilon` in absolute value, the code's invertibility test),
`InverseTransformPoint` after `TransformPoint` succeeds and recovers the
point exactly (hence within the spec's ε = 1e-6). -/
theorem C4_transform_roundtrip (t : Transform) (p : Vector2)
    (hε : Epsilon ≤ |t.ToMatrix.Determinant|) :
    t.InverseTransformPoint (t.TransformPoint p) = some p := by
  obtain ⟨h20, h21, h22⟩ := t.ToMatrix_bottom_row
  obtain ⟨mi, hmi, hrt⟩ :=
    affine_inverse_transformPoint t.ToMatrix h20 h21 h22 hε
  simp only [Transform.InverseTransformPoint, Transform.ToInverseMatrix,
    Transform.TransformPoint, hmi]
  exact congrArg some (hrt p)

/-- C7: when the view matrix fails to invert, `ScreenToWorld` returns the
world origin `(0,0)` for every screen position and screen size, instead of
propagating the error. -/
theorem C7_screenToWorld_singular_fallback (c : Camera2D)
    (screenPos : Vector2) (screenWidth screenHeight : ℝ)
    (hsing : c.GetViewMatrix.Inverse = none) :
    c.ScreenToWorld screenPos screenWidth screenHeight = ⟨0, 0⟩ := by
  simp only [Camera2D.ScreenToWorld, hsing]

/-- C8: `SetZoom` and `ZoomBy` are no-ops on non-positive input (in
particular `SetZoom (-1)` and `SetZoom 0`), both preserve `Zoom > 0`, and
every other camera mutator leaves `Zoom` unchanged. -/
theorem C8_zoom_mutators_preserve_invariant (c : Camera2D)
    (hc : 0 < c.Zoom) :
    (∀ z, z ≤ 0 → (c.SetZoom z).Zoom = c.Zoom) ∧
      (∀ fac, fac ≤ 0 → (c.ZoomBy fac).Zoom = c.Zoom) ∧
      ((c.SetZoom (-1)).Zoom = c.Zoom ∧ (c.SetZoom 0).Zoom = c.Zoom) ∧
      (∀ z, 0 < (c.SetZoom z).Zoom) ∧
      (∀ fac, 0 < (c.ZoomBy fac).Zoom) ∧
      ∀ (p : Vector2) (r : ℝ) (off : Vector2) (ang : ℝ) (tgt : Vector2),
        (c.SetPosition p).Zoom = c.Zoom ∧
          (c.SetRotation r).Zoom = c.Zoom ∧
          (c.SetRotationDegrees r).Zoom = c.Zoom ∧
          (c.Move off).Zoom = c.Zoom ∧
          (c.Rotate ang).Zoom = c.Zoom ∧
          (c.RotateDegrees r).Zoom = c.Zoom ∧
          (c.LookAt tgt).Zoom = c.Zoom := by
  refine ⟨?_, ?_, ⟨?_, ?_⟩, ?_, ?_, ?_⟩
  · intro z hz
    rw [Camera2D.SetZoom, if_neg (not_lt.mpr hz)]
  · intro fac hf
    rw [Camera2D.ZoomBy, if_neg (not_lt.mpr hf)]
  · rw [Camera2D.SetZoom]
    norm_num
  · rw [Camera2D.SetZoom]
    norm_num
  · intro z
    rw [Camera2D.SetZoom]
    split_ifs with h
    · exact h
    · exact hc
  · intro fac
    rw [Camera2D.ZoomBy]
    split_ifs with h
    · exact mul_pos hc h
    · exact hc
  · intro p r off ang tgt
    exact ⟨rfl, rfl, rfl, rfl, rfl, rfl, rfl⟩

/-- C9: `Normalize` returns the zero vector when the length is below the
zero threshold (in particular for the zero vector), and otherwise the
normalized vector has length exactly 1. -/
theorem C9_normalize_unit_or_zero (v : Vector2) :
    (IsZero v.Length → v.Normalize = ⟨0, 0⟩) ∧
      (¬ IsZero v.Length → v.Normalize.Length = 1) := by
  constructor
  · intro h
    rw [Vector2.Normalize, if_pos h]
  · intro h
    rw [Vector2.Normalize, if_neg h]
    have hnn : 0 ≤ v.X * v.X + v.Y * v.Y :=
      add_nonneg (mul_self_nonneg _) (mul_self_nonneg _)
    have hL0 : 0 ≤ v.Length := Real.sqrt_nonneg _
    have hLt : ZeroThreshold ≤ v.Length := by
      rw [IsZero, not_lt, abs_of_nonneg hL0] at h
      exact h
    have hLpos : 0 < v.Length :=
      lt_of_lt_of_le (by rw [ZeroThreshold]; norm_num) hLt
    have hLne : v.Length ≠ 0 := ne_of_gt hLpos
    have hsq : v.Length * v.Length = v.X * v.X + v.Y * v.Y :=
      Real.mul_self_sqrt hnn
    have hone : v.X / v.Length * (v.X / v.Length) +
        v.Y / v.Length * (v.Y / v.Length) = 1 := by
      field_simp
      linarith [hsq]
    simp only [Vector2.Length] at hone ⊢
    rw [hone, Real.sqrt_one]

/-- The view matrix of the default camera (zoom 1, rotation 0, position the
origin) is the identity. -/
lemma NewCamera2D_view : NewCamera2D.GetViewMatrix = NewIdentityMatrix3x3 := by
  ext <;>
    simp [NewCamera2D, Camera2D.GetViewMatrix, Matrix3x3.Multiply,
      NewScaleMatrix3x3, NewRotationMatrix3x3, NewTranslationMatrix3x3,
      NewIdentityMatrix3x3, Real.cos_zero, Real.sin_zero]

/-- The view matrix of a camera constructed with zoom `0` zeroes the linear
part, leaving only the homogeneous `1`. -/
lemma zeroZoom_view :
    (NewCamera2DWithValues ⟨0, 0⟩ 0 0).GetViewMatrix =
      ⟨0, 0, 0, 0, 0, 0, 0, 0, 1⟩ := by
  ext <;>
    simp [NewCamera2DWithValues, Camera2D.GetViewMatrix, Matrix3x3.Multiply,
      NewScaleMatrix3x3, NewRotationMatrix3x3, NewTranslationMatrix3x3]

/-- The zoom-0 camera's view matrix is singular, so its inverse fails. -/
lemma zeroZoom_view_inverse_none :
    (NewCamera2DWithValues ⟨0, 0⟩ 0 0).GetViewMatrix.Inverse = none := by
  rw [zeroZoom_view, Matrix3x3.Inverse]
  norm_num [Matrix3x3.Determinant, Epsilon]

/-- C2 counterexample: for the camera with zoom `0` (constructible via
`NewCamera2DWithValues`), the screen/world round trip sends `(1,0)` to the
origin, which is not within `1e-8` of `(1,0)`. -/
theorem C2_counterexample_zero_zoom :
    ¬ ApproxV2
        ((NewCamera2DWithValues ⟨0, 0⟩ 0 0).ScreenToWorld
          ((NewCamera2DWithValues ⟨0, 0⟩ 0 0).WorldToScreen ⟨1, 0⟩ 800 600)
          800 600)
        ⟨1, 0⟩ (1 / 10 ^ 8) := by
  have h0 : (NewCamera2DWithValues ⟨0, 0⟩ 0 0).ScreenToWorld
      ((NewCamera2DWithValues ⟨0, 0⟩ 0 0).WorldToScreen ⟨1, 0⟩ 800 600)
      800 600 = ⟨0, 0⟩ := by
    simp only [Camera2D.ScreenToWorld, zeroZoom_view_inverse_none]
  rw [h0]
  norm_num [ApproxV2]

/-- C2 (amended): for a camera whose view matrix is invertible (determinant
at least `Epsilon` in absolute value), `ScreenToWorld` after `WorldToScreen`
on an 800×600 screen recovers the world point exactly (hence within the
spec's ε = 1e-8). -/
theorem C2_camera_roundtrip (c : Camera2D) (p : Vector2)
    (hε : Epsilon ≤ |c.GetViewMatrix.Determinant|) :
    c.ScreenToWorld (c.WorldToScreen p 800 600) 800 600 = p := by
  obtain ⟨h20, h21, h22⟩ := c.GetViewMatrix_bottom_row
  obtain ⟨mi, hmi, hrt⟩ :=
    affine_inverse_transformPoint c.GetViewMatrix h20 h21 h22 hε
  simp only [Camera2D.ScreenToWorld, Camera2D.WorldToScreen, hmi]
  convert hrt p using 2
  ext <;> ring

/-- C10: `NewCamera2DWithValues` stores the given zoom verbatim, so it can
produce a camera whose zoom violates the `Zoom > 0` invariant (for example
zoom `-1`). -/
theorem C10_constructor_stores_zoom_verbatim :
    (∀ (p : Vector2) (z r : ℝ), (NewCamera2DWithValues p z r).Zoom = z) ∧
      (NewCamera2DWithValues ⟨0, 0⟩ (-1) 0).Zoom = -1 ∧
      (NewCamera2DWithValues ⟨0, 0⟩ (-1) 0).Zoom ≤ 0 := by
  refine ⟨fun p z r => rfl, rfl, ?_⟩
  norm_num [NewCamera2DWithValues]

/-! ### Witnesses -/

/-- The identity transform's matrix is the identity matrix. -/
lemma baseTransform_toMatrix :
    (⟨⟨0, 0⟩, 0, ⟨1, 1⟩⟩ : Transform).ToMatrix = NewIdentityMatrix3x3 := by
  ext <;>
    simp [Transform.ToMatrix, Matrix3x3.Multiply, NewTranslationMatrix3x3,
      NewRotationMatrix3x3, NewScaleMatrix3x3, NewIdentityMatrix3x3,
      Real.cos_zero, Real.sin_zero]

/-- The identity matrix has determinant `1`, whose absolute value is at
least `Epsilon`. -/
lemma identity_det_large :
    Epsilon ≤ |NewIdentityMatrix3x3.Determinant| := by
  norm_num [NewIdentityMatrix3x3, Matrix3x3.Determinant, Epsilon]

/-- C2 witness: the default camera round-trips `(3,4)` through an 800×600
screen. -/
theorem C2_camera_roundtrip_witness :
    NewCamera2D.ScreenToWorld (NewCamera2D.WorldToScreen ⟨3, 4⟩ 800 600)
      800 600 = ⟨3, 4⟩ :=
  C2_camera_roundtrip NewCamera2D ⟨3, 4⟩
    (by rw [NewCamera2D_view]; exact identity_det_large)

/-- C3 witness: the singular example evaluated through the theorem. -/
theorem C3_inverse_singular_iff_witness :
    Matrix3x3.Inverse ⟨1, 2, 3, 4, 5, 6, 7, 8, 9⟩ = none :=
  C3_inverse_singular_iff.2.2

/-- C4 witness: the identity transform round-trips `(2,3)`. -/
theorem C4_transform_roundtrip_witness :
    Transform.InverseTransformPoint ⟨⟨0, 0⟩, 0, ⟨1, 1⟩⟩
      (Transform.TransformPoint ⟨⟨0, 0⟩, 0, ⟨1, 1⟩⟩ ⟨2, 3⟩) = some ⟨2, 3⟩ :=
  C4_transform_roundtrip ⟨⟨0, 0⟩, 0, ⟨1, 1⟩⟩ ⟨2, 3⟩
    (by rw [baseTransform_toMatrix]; exact identity_det_large)

/-- C5 witness: the translation by `(5,7)` inverts, with product the
identity. -/
theorem C5_inverse_multiplicative_witness :
    ∃ mi, (NewTranslationMatrix3x3 5 7).Inverse = some mi ∧
      (NewTranslationMatrix3x3 5 7).Multiply mi = NewIdentityMatrix3x3 :=
  C5_inverse_multiplicative.2 (NewTranslationMatrix3x3 5 7)
    (by norm_num [NewTranslationMatrix3x3, Matrix3x3.Determinant, Epsilon])

/-- C6 witness: composition order evaluated on a concrete product and
vector. -/
theorem C6_multiply_composes_witness :
    ((NewTranslationMatrix3x3 1 2).Multiply
        (NewScaleMatrix3x3 3 4)).MultiplyVector ⟨1, 1, 1⟩ =
      (NewTranslationMatrix3x3 1 2).MultiplyVector
        ((NewScaleMatrix3x3 3 4).MultiplyVector ⟨1, 1, 1⟩) :=
  C6_multiply_composes.1 (NewTranslationMatrix3x3 1 2)
    (NewScaleMatrix3x3 3 4) ⟨1, 1, 1⟩

/-- C7 witness: the zoom-0 camera maps the screen point `(123,45)` to the
origin. -/
theorem C7_screenToWorld_singular_fallback_witness :
    (NewCamera2DWithValues ⟨0, 0⟩ 0 0).ScreenToWorld ⟨123, 45⟩ 800 600 =
      ⟨0, 0⟩ :=
  C7_screenToWorld_singular_fallback (NewCamera2DWithValues ⟨0, 0⟩ 0 0)
    ⟨123, 45⟩ 800 600 zeroZoom_view_inverse_none

/-- C8 witness: `SetZoom (-1)` and `SetZoom 0` leave the default camera's
zoom unchanged. -/
theorem C8_zoom_mutators_preserve_invariant_witness :
    (NewCamera2D.SetZoom (-1)).Zoom = NewCamera2D.Zoom ∧
      (NewCamera2D.SetZoom 0).Zoom = NewCamera2D.Zoom :=
  (C8_zoom_mutators_preserve_invariant NewCamera2D
    (by norm_num [NewCamera2D])).2.2.1

/-- C9 witness: normalizing `(3,4)` yields a unit-length vector. -/
theorem C9_normalize_unit_or_zero_witness :
    (Vector2.Normalize ⟨3, 4⟩).Length = 1 :=
  (C9_normalize_unit_or_zero ⟨3, 4⟩).2 (by
    have h5 : (⟨3, 4⟩ : Vector2).Length = 5 := by
      simp only [Vector2.Length]
      rw [show (3 : ℝ) * 3 + 4 * 4 = 5 ^ 2 by norm_num,
        Real.sqrt_sq (by norm_num : (0 : ℝ) ≤ 5)]
    rw [IsZero, h5]
    norm_num [ZeroThreshold])

end

end TinyEngine
